import Mathlib

/-
Shallow embedding of the PUS lab-1 public-key trust infrastructure
(central registry + communicator middleware) and proofs about it.

Modelling conventions:
  * RSA keypairs are surrogate identifiers (Nat).  `exportKey("PEM")` of a
    key is modelled as the key identifier itself, and `get_rsa_key(pem)`
    (the import branch) is the identity on that identifier; a signature
    produced by `key.sign(h, "")` is the pair (key, h) and
    `key.verify(h, sig)` checks that sig = (key, h), which is exactly the
    raw-RSA contract that a signature verifies against the public key
    matching the private key that produced it over the same digest.
  * SHA-256 digests are modelled as the ordered list/tuple of the byte
    strings fed into the hash object, an injective surrogate of the digest.
  * Python dicts are association lists with `findA` / `insertA`
    (assignment replaces any previous binding for the key).
  * Python ints are Int.  A path on which the Python code raises an
    uncaught exception before completing is modelled by an Option-valued
    result being `none`.  This covers KeyError / IndexError /
    AttributeError, and also the TypeError PyCrypto raises inside
    `key.verify(h, sig)` when sig is still None: its `_verify` starts by
    unpacking `sig[:1]`, so verification of an unsigned object never
    returns a boolean; verify therefore has type Option Bool.
  * The registry runs on a plain sequential `socketserver.TCPServer`
    (not the threading variant), so requests are handled one at a time;
    sequences of requests are modelled as folds over a request list.
-/

/-- Network address, the Python tuple (ip address, port). -/
abbrev Address := String × Int

/-- Surrogate for an RSA key object; the PEM export of a key is the key
identifier itself. -/
abbrev RsaKey := Nat

/-- Import branch of `com_structs.get_rsa_key`: constructing a key object
from a PEM representation recovers the same key. -/
def get_rsa_key (pem : RsaKey) : RsaKey := pem

/-- Lookup in a Python-dict-as-association-list: `d[key]` when present. -/
def findA {α : Type} : List (Int × α) → Int → Option α
  | [], _ => none
  | (k, v) :: rest, key => if k = key then some v else findA rest key

/-- Assignment `d[key] = v` on a Python-dict-as-association-list: replaces
any previous binding of `key`. -/
def insertA {α : Type} (l : List (Int × α)) (key : Int) (v : α) : List (Int × α) :=
  (key, v) :: l.filter fun p => p.1 != key

/-- Digital certificate from `com_structs.Certificate`: name, (ip, port)
address, PEM public key, optional signature, registry-assigned com_id
(0 until assigned). -/
structure Certificate where
  name : String
  address : Address
  public_key : RsaKey
  signature : Option (RsaKey × (String × RsaKey)) := none
  com_id : Int := 0
deriving DecidableEq

/-- Certificate.hash: SHA-256 over the ascii name followed by the public
key bytes, modelled as the pair of inputs. -/
def Certificate.hash (c : Certificate) : String × RsaKey :=
  (c.name, c.public_key)

/-- Certificate.sign: store `key.sign(self.hash(), "")` in the signature
field. -/
def Certificate.sign (c : Certificate) (key : RsaKey) : Certificate :=
  { c with signature := some (key, c.hash) }

/-- Certificate.verify: `key.verify(self.hash(), self.signature)`.  When
the signature field is still None, PyCrypto raises TypeError before any
comparison (`none`); otherwise the raw-RSA check yields the boolean
`some (signature matches this key over this digest)`. -/
def Certificate.verify (c : Certificate) (key : RsaKey) : Option Bool :=
  match c.signature with
  | none => none
  | some sig => some (decide (sig = (key, c.hash)))

namespace Message

/-- Message type tag for certificate queries / peer certificate exchange. -/
def CERTIFICATE : String := "CERTIFICATE"

/-- Message type tag for certificate signing requests. -/
def SIGN : String := "SIGN"

/-- Message type tag for file publication requests. -/
def PUBLISH : String := "PUBLISH"

/-- Message type tag for service-provider directory queries. -/
def FETCH_SP : String := "FETCH_SP"

/-- Message type tag for file (directory or content) queries. -/
def FETCH_FILE : String := "FETCH_FILE"

/-- Message.TYPES, the set of supported message types. -/
def TYPES : List String := [CERTIFICATE, SIGN, PUBLISH, FETCH_SP, FETCH_FILE]

end Message

/-- FileDescriptor from `descriptors.py`: filename, author, description,
file id (-1 until registry-assigned), owning communicator id (-1 until
assigned). -/
structure FileDescriptor where
  name : String
  author : String
  description : String
  file_id : Int := -1
  com_id : Int := -1
deriving DecidableEq

/-- FileBuffer from `descriptors.py`: per-process buffer id, descriptor of
the file, and the loaded lines (empty until loaded). -/
structure FileBuffer where
  buffer_id : Int
  descriptor : FileDescriptor
  lines : List String := []
deriving DecidableEq

/-- SPDescriptor from `descriptors.py`: communicator id, name and address
of a service provider. -/
structure SPDescriptor where
  com_id : Int
  name : String
  address : Address
deriving DecidableEq

/-- FileRequest from `com_structs.py`: a Message of type FETCH_FILE whose
content is a FileBuffer, carrying in addition the requesting username, the
source communicator id and an optional signature.  The `type` field is
always FETCH_FILE and is kept implicit. -/
structure FileRequest where
  username : String
  src_com_id : Int
  signature : Option (RsaKey × List String) := none
  content : FileBuffer
deriving DecidableEq

/-- FileRequest.hash: SHA-256 over, in order, the username, the type tag
FETCH_FILE, each buffer line when the line list is non-empty (Python
truthiness of `self.content.lines`), and the string
`"%d %d %d %d" % (descriptor.com_id, src_com_id, descriptor.com_id,
descriptor.file_id)`. -/
def FileRequest.hash (f : FileRequest) : List String :=
  let descriptor := f.content.descriptor
  let hash_string :=
    toString descriptor.com_id ++ " " ++ toString f.src_com_id ++ " " ++
      toString descriptor.com_id ++ " " ++ toString descriptor.file_id
  [f.username, Message.FETCH_FILE] ++
    (if f.content.lines.isEmpty then [] else f.content.lines) ++
    [hash_string]

/-- FileRequest.sign: store `key.sign(self.hash(), "")`. -/
def FileRequest.sign (f : FileRequest) (key : RsaKey) : FileRequest :=
  { f with signature := some (key, f.hash) }

/-- FileRequest.verify: `key.verify(self.hash(), self.signature)`.  As
for certificates, a None signature makes PyCrypto raise TypeError
(`none`); otherwise the boolean comparison result is returned. -/
def FileRequest.verify (f : FileRequest) (key : RsaKey) : Option Bool :=
  match f.signature with
  | none => none
  | some sig => some (decide (sig = (key, f.hash)))

/-- State of the central registry from `central_registry.py`: its name,
address, keypair, own (unsigned) certificate, the global communicator id
counter with the service-provider directory, and the global file id
counter with the public file directory. -/
structure CentralRegistry where
  name : String
  address : Address
  key : RsaKey
  certificate : Certificate
  com_id_counter : Int
  service_providers : List (Int × SPDescriptor)
  file_id_counter : Int
  public_files : List (Int × FileDescriptor)

/-- CentralRegistry.__init__: both counters start at 1, both directories
empty, the registry certificate is unsigned with com_id 0 and carries the
PEM export of the registry public key. -/
def CentralRegistry.init (name : String) (address : Address) (key : RsaKey) :
    CentralRegistry :=
  { name := name
    address := address
    key := key
    certificate := { name := name, address := address, public_key := key }
    com_id_counter := 1
    service_providers := []
    file_id_counter := 1
    public_files := [] }

/-- CentralRegistry.register_certificate: assign the current value of the
communicator id counter to the certificate, increment the counter, sign
the certificate with the registry private key, and store a service
provider descriptor under the assigned id.  Returns the new registry
state and the mutated certificate. -/
def CentralRegistry.register_certificate (s : CentralRegistry)
    (certificate : Certificate) : CentralRegistry × Certificate :=
  let c1 := { certificate with com_id := s.com_id_counter }
  let c2 := c1.sign s.key
  let descriptor : SPDescriptor :=
    { com_id := c2.com_id, name := c2.name, address := c2.address }
  ({ s with
      com_id_counter := s.com_id_counter + 1
      service_providers :=
        insertA s.service_providers descriptor.com_id descriptor },
   c2)

/-- CentralRegistry.publish: for each descriptor in list order, assign the
current value of the file id counter, increment the counter, and store the
descriptor in the public file directory under the assigned id.  Returns
the new state and the mutated list. -/
def CentralRegistry.publish (s : CentralRegistry) :
    List FileDescriptor → CentralRegistry × List FileDescriptor
  | [] => (s, [])
  | file_descriptor :: rest =>
    let f1 := { file_descriptor with file_id := s.file_id_counter }
    let s1 := { s with
      file_id_counter := s.file_id_counter + 1
      public_files := insertA s.public_files f1.file_id f1 }
    let (s2, rest1) := s1.publish rest
    (s2, f1 :: rest1)

/-- Payload of a registry-bound Message, one constructor per payload shape
the handler touches: empty, a certificate, a descriptor list, or one of
the two directories. -/
inductive RegContent
  | nil
  | cert (c : Certificate)
  | files (fs : List FileDescriptor)
  | spDir (d : List (Int × SPDescriptor))
  | fileDir (d : List (Int × FileDescriptor))
deriving DecidableEq

/-- Wire envelope for registry traffic: type tag (an arbitrary string,
since unpickling does not re-run the Message constructor), payload, and
the is_request flag. -/
structure RegMessage where
  type : String
  content : RegContent
  request : Bool
deriving DecidableEq

/-- RequestHandler.handle of the central registry: set request to False,
dispatch on the type tag, and send the message back.  An unknown type only
sets request back to True.  The result is `none` exactly when the Python
handler raises before replying: a SIGN whose payload is not a certificate
(AttributeError on `certificate.name`) or a PUBLISH whose payload is not a
non-empty descriptor list (IndexError on `files[0]`). -/
def RequestHandler.handle (s : CentralRegistry) (m : RegMessage) :
    Option (CentralRegistry × RegMessage) :=
  let m0 := { m with request := false }
  if m.type = Message.CERTIFICATE then
    some (s, { m0 with content := .cert s.certificate })
  else if m.type = Message.SIGN then
    match m.content with
    | .cert c =>
      let r := s.register_certificate c
      some (r.1, { m0 with content := .cert r.2 })
    | _ => none
  else if m.type = Message.PUBLISH then
    match m.content with
    | .files (f :: rest) =>
      let r := s.publish (f :: rest)
      some (r.1, { m0 with content := .files r.2 })
    | _ => none
  else if m.type = Message.FETCH_SP then
    some (s, { m0 with content := .spDir s.service_providers })
  else if m.type = Message.FETCH_FILE then
    some (s, { m0 with content := .fileDir s.public_files })
  else
    some (s, { m0 with request := true })

/-- Sequential handling of a list of SIGN requests by the registry (the
registry serves one connection at a time on a non-threading TCPServer):
fold `register_certificate` over the submitted certificates, collecting
the signed certificates carried back in the replies. -/
def signAll (s : CentralRegistry) :
    List Certificate → CentralRegistry × List Certificate
  | [] => (s, [])
  | c :: cs =>
    let r := s.register_certificate c
    let rest := signAll r.1 cs
    (rest.1, r.2 :: rest.2)

/-- State of a communicator from `communicator.py`: name, address, the
loader callback filling buffers from local storage, own keypair, own
certificate, the com-id-indexed caches of peer certificates and imported
peer public keys, the cached service-provider directory, and the registry
certificate with its imported public key (trust anchor). -/
structure Communicator where
  name : String
  address : Address
  loader : FileBuffer → FileBuffer
  key : RsaKey
  certificate : Certificate
  com_certificates : List (Int × Certificate)
  com_keys : List (Int × RsaKey)
  communicators : List (Int × SPDescriptor)
  cr_certificate : Certificate
  cr_key : RsaKey

/-- Communicator.register_certificate: if the certificate is not None and
verifies against the registry public key, cache it and its imported
public key under its com_id and return True; on a clean verification
failure return False with no change; when the certificate carries no
signature the verify call raises TypeError, which propagates out of
register_certificate before any cache is touched (`none`). -/
def Communicator.register_certificate (s : Communicator)
    (certificate : Option Certificate) : Option (Communicator × Bool) :=
  match certificate with
  | some cert =>
    match cert.verify s.cr_key with
    | none => none
    | some true =>
      some ({ s with
          com_certificates := insertA s.com_certificates cert.com_id cert
          com_keys :=
            insertA s.com_keys cert.com_id (get_rsa_key cert.public_key) },
        true)
    | some false => some (s, false)
  | none => some (s, false)

/-- CERTIFICATE branch of CommunicatorHandler.handle: try to register the
payload; on success reply with this communicator's own certificate, on
clean failure reply with None, the reply keeping request = False either
way; when register_certificate raises (unsigned payload) the handler
raises too and no reply envelope is sent (`none`). -/
def Communicator.handleCert (s : Communicator) (payload : Option Certificate) :
    Option (Communicator × Option Certificate) :=
  match s.register_certificate payload with
  | none => none
  | some r =>
    if r.2 then some (r.1, some s.certificate) else some (r.1, none)

/-- Inbound message to a communicator, one constructor per type the
handler dispatches on: a CERTIFICATE message with an optional certificate
payload, or a FETCH_FILE message (a FileRequest). -/
inductive ComMsg
  | certMsg (content : Option Certificate)
  | fileMsg (fr : FileRequest)

/-- CommunicatorHandler.handle: set request to False, dispatch on the
message type, and send the message back; the Bool in the result is the
reply's is_request flag, and `none` means the handler raised before
replying (no envelope sent, server state untouched).  For FETCH_FILE the
handler first evaluates `self.server.com_keys[message.src_com_id]`; a
missing source com_id raises KeyError (`none`).  On a cached key it
verifies the request: an unsigned request makes verify raise TypeError
(`none`); a request verifying true has its buffer filled by the loader
callback and is re-signed with the local private key (request stays
False); a request verifying false only flips request back to True. -/
def CommunicatorHandler.handle (s : Communicator) :
    ComMsg → Option (Communicator × ComMsg × Bool)
  | .certMsg content =>
    match s.handleCert content with
    | none => none
    | some r => some (r.1, .certMsg r.2, false)
  | .fileMsg message =>
    match findA s.com_keys message.src_com_id with
    | none => none
    | some key =>
      match message.verify key with
      | none => none
      | some true =>
        let loaded := { message with content := s.loader message.content }
        some (s, .fileMsg (loaded.sign s.key), false)
      | some false => some (s, .fileMsg message, true)

/-- Peer-to-peer certificate exchange: node `a` sends a CERTIFICATE
request carrying its own certificate to node `b`
(Communicator.__get_certificate with content), `b`'s handler answers via
`handleCert`, and `a` then calls register_certificate on the reply payload
(Communicator.__exchange_certificate).  Returns the two updated states and
`a`'s registration result; `none` when either side raises (if `b`'s
handler raises it sends no reply and `a`'s unpickling of the empty reply
fails; `a`'s own register_certificate may raise TypeError on an unsigned
reply), so no exchange completes. -/
def exchange (a b : Communicator) :
    Option (Communicator × Communicator × Bool) :=
  match b.handleCert (some a.certificate) with
  | none => none
  | some rb =>
    match a.register_certificate rb.2 with
    | none => none
    | some ra => some (ra.1, rb.1, ra.2)

/-- Communicator.publish, stamping step: before forwarding a PUBLISH
request to the registry, set the owning com_id of every descriptor in the
list to this communicator's own id; the stamped list is the payload of
the PUBLISH message. -/
def Communicator.stampFiles (c : Communicator) (files : List FileDescriptor) :
    List FileDescriptor :=
  files.map fun file_descriptor =>
    { file_descriptor with com_id := c.certificate.com_id }

/-- Abstraction of the network seen by one fetch_file call: the payload the
peer returns to a certificate-exchange CERTIFICATE request, and the reply
envelope (FileRequest payload plus its is_request flag) the peer returns
to the file request. -/
structure Network where
  exchangeReply : Option Certificate
  fileReply : FileRequest → FileRequest × Bool

/-- Observable outcome of a fetch_file call.  `keyErrorCom` is the
uncaught KeyError on `self.communicators[com_id]`; `typeErrorExchange`
is the TypeError raised inside register_certificate while verifying an
unsigned exchange reply; `exchangeFailed` is the explicit `return None`
after a cleanly failed certificate exchange; `keyErrorKeys` is the
uncaught KeyError on `self.com_keys[com_id]` while verifying a
non-refusal reply; `typeErrorReply` is the TypeError raised verifying a
non-refusal reply whose signature is None; `returned` carries the
delivered `message.content`, whether the reply was a refusal
(is_request = True), and the advisory verification result when one was
computed. -/
inductive FetchOutcome
  | keyErrorCom
  | typeErrorExchange
  | exchangeFailed
  | keyErrorKeys
  | typeErrorReply
  | returned (content : FileBuffer) (refused : Bool) (verified : Option Bool)
deriving DecidableEq

/-- Trace of one fetch_file call: final communicator state, number of
certificate-exchange attempts made, the FileRequest sent to the peer when
one was sent, and the outcome. -/
structure FetchTrace where
  state : Communicator
  exchanges : Nat
  sent : Option FileRequest
  outcome : FetchOutcome

/-- Tail of Communicator.fetch_file after the trust check: build the
FileRequest (buffer, own com_id, username), sign it with the local
private key, send it, and read the one reply.  A refusal
(reply.request = True) is only printed; a non-refusal reply is verified
against the cached peer key, with the result printed.  Either way the
call returns `message.content` of the reply. -/
def Communicator.fetchSend (c : Communicator) (buffer : FileBuffer)
    (username : String) (net : Network) (exchanges : Nat) : FetchTrace :=
  let message := FileRequest.mk username c.certificate.com_id none buffer
  let message := message.sign c.key
  let reply := net.fileReply message
  if reply.2 then
    ⟨c, exchanges, some message, .returned reply.1.content true none⟩
  else
    match findA c.com_keys buffer.descriptor.com_id with
    | none => ⟨c, exchanges, some message, .keyErrorKeys⟩
    | some key =>
      match reply.1.verify key with
      | none => ⟨c, exchanges, some message, .typeErrorReply⟩
      | some v =>
        ⟨c, exchanges, some message,
          .returned reply.1.content false (some v)⟩

/-- Communicator.fetch_file: resolve the owning peer's address from the
cached directory (KeyError when absent), skip the certificate exchange
when the owning com_id is already in com_certificates, otherwise attempt
exactly one exchange and return None when it fails; then delegate to
`fetchSend`. -/
def Communicator.fetch_file (c : Communicator) (buffer : FileBuffer)
    (username : String) (net : Network) : FetchTrace :=
  let com_id := buffer.descriptor.com_id
  match findA c.communicators com_id with
  | none => ⟨c, 0, none, .keyErrorCom⟩
  | some _sp =>
    if (findA c.com_certificates com_id).isSome then
      c.fetchSend buffer username net 0
    else
      match c.register_certificate net.exchangeReply with
      | none => ⟨c, 1, none, .typeErrorExchange⟩
      | some r =>
        if r.2 then
          r.1.fetchSend buffer username net 1
        else
          ⟨r.1, 1, none, .exchangeFailed⟩

theorem findA_filter_ne {α : Type} (l : List (Int × α)) (k key : Int)
    (h : k ≠ key) :
    findA (l.filter fun p => p.1 != k) key = findA l key := by
  induction l with
  | nil => rfl
  | cons a rest ih =>
    rw [List.filter_cons]
    by_cases hak : a.1 = k
    · have hb : (a.1 != k) = false := by simp [hak]
      have hne : ¬(a.1 = key) := fun hc => h (hak ▸ hc)
      rw [hb]
      simp only [Bool.false_eq_true, if_false, ih, findA, if_neg hne]
    · have hb : (a.1 != k) = true := by simpa [bne_iff_ne] using hak
      rw [hb]
      simp only [if_true, findA, ih]

theorem findA_insertA_self {α : Type} (l : List (Int × α)) (k : Int) (v : α) :
    findA (insertA l k v) k = some v := by
  simp [insertA, findA]

theorem findA_insertA_ne {α : Type} (l : List (Int × α)) (k key : Int) (v : α)
    (h : k ≠ key) :
    findA (insertA l k v) key = findA l key := by
  simp only [insertA, findA, if_neg h]
  exact findA_filter_ne l k key h

theorem signAll_length (s : CentralRegistry) (cs : List Certificate) :
    (signAll s cs).2.length = cs.length := by
  induction cs generalizing s with
  | nil => rfl
  | cons c cs ih => simp [signAll, ih]

theorem register_counter (s : CentralRegistry) (c : Certificate) :
    (s.register_certificate c).1.com_id_counter = s.com_id_counter + 1 := rfl

theorem register_key (s : CentralRegistry) (c : Certificate) :
    (s.register_certificate c).1.key = s.key := rfl

theorem register_sp (s : CentralRegistry) (c : Certificate) :
    (s.register_certificate c).1.service_providers =
      insertA s.service_providers s.com_id_counter
        { com_id := s.com_id_counter, name := c.name, address := c.address } :=
  rfl

theorem signAll_cons_fst (s : CentralRegistry) (c : Certificate)
    (cs : List Certificate) :
    (signAll s (c :: cs)).1 = (signAll (s.register_certificate c).1 cs).1 :=
  rfl

theorem signAll_counter (s : CentralRegistry) (cs : List Certificate) :
    (signAll s cs).1.com_id_counter = s.com_id_counter + cs.length := by
  induction cs generalizing s with
  | nil => simp [signAll]
  | cons c cs ih =>
    rw [signAll_cons_fst, ih, register_counter, List.length_cons]
    push_cast
    ring

theorem signAll_sp_preserved (s : CentralRegistry) (cs : List Certificate)
    (k : Int) (hk : k < s.com_id_counter) :
    findA (signAll s cs).1.service_providers k = findA s.service_providers k := by
  induction cs generalizing s with
  | nil => rfl
  | cons c cs ih =>
    rw [signAll_cons_fst, ih _ (by rw [register_counter]; omega), register_sp]
    exact findA_insertA_ne _ _ _ _ (by omega)

theorem signAll_get (s : CentralRegistry) (cs : List Certificate)
    (i : Nat) (h : i < cs.length) (h2 : i < (signAll s cs).2.length) :
    (signAll s cs).2[i] =
      Certificate.sign { cs[i] with com_id := s.com_id_counter + i } s.key := by
  induction cs generalizing s i with
  | nil => exact absurd h (by simp)
  | cons c cs ih =>
    match i with
    | 0 => simp [signAll, CentralRegistry.register_certificate]
    | i + 1 =>
      have hlen : i < (signAll (s.register_certificate c).1 cs).2.length := by
        rw [signAll_length]
        exact Nat.lt_of_succ_lt_succ h
      have hi := ih (s.register_certificate c).1 i (Nat.lt_of_succ_lt_succ h) hlen
      rw [register_counter, register_key] at hi
      have harith : s.com_id_counter + 1 + (i : Int) =
          s.com_id_counter + ((i + 1 : Nat) : Int) := by
        push_cast
        ring
      rw [harith] at hi
      show (signAll s (c :: cs)).2[i + 1] = _
      simp only [signAll, List.getElem_cons_succ]
      simpa using hi

theorem signAll_sp (s : CentralRegistry) (cs : List Certificate)
    (i : Nat) (h : i < cs.length) :
    findA (signAll s cs).1.service_providers (s.com_id_counter + i) =
      some { com_id := s.com_id_counter + i, name := cs[i].name,
             address := cs[i].address } := by
  induction cs generalizing s i with
  | nil => exact absurd h (by simp)
  | cons c cs ih =>
    match i with
    | 0 =>
      rw [signAll_cons_fst,
        signAll_sp_preserved _ _ _ (by rw [register_counter]; omega),
        register_sp]
      simp [findA_insertA_self]
    | i + 1 =>
      have hi := ih (s.register_certificate c).1 i (Nat.lt_of_succ_lt_succ h)
      rw [register_counter] at hi
      have harith : s.com_id_counter + 1 + (i : Int) =
          s.com_id_counter + ((i + 1 : Nat) : Int) := by
        push_cast
        ring
      rw [harith] at hi
      rw [signAll_cons_fst]
      simpa using hi

/-- C1: for every sequence of SIGN requests handled by the registry
(served one at a time from a fresh registry whose counter starts at 1),
the n-th request is assigned communicator identifier n, identifiers of
successive calls are strictly increasing and never repeat, each call
signs hash(name, public key) with the registry private key and stores a
ServiceProviderDescriptor under the assigned identifier, and the SIGN
reply carries the certificate now bearing that identifier and signature
with is_request = false. -/
theorem c1_sign_sequence (name : String) (addr : Address) (key : RsaKey)
    (certs : List Certificate) (s2 : CentralRegistry) (outs : List Certificate)
    (hr : signAll (CentralRegistry.init name addr key) certs = (s2, outs)) :
    outs.length = certs.length ∧
    s2.com_id_counter = 1 + certs.length ∧
    (∀ i (hi : i < certs.length) (hi2 : i < outs.length),
      outs[i].com_id = (i : Int) + 1 ∧
      outs[i] = Certificate.sign { certs[i] with com_id := (i : Int) + 1 } key ∧
      outs[i].signature = some (key, (certs[i]).hash) ∧
      findA s2.service_providers ((i : Int) + 1) =
        some { com_id := (i : Int) + 1, name := (certs[i]).name,
               address := (certs[i]).address }) ∧
    (∀ i j, i < j → ∀ (hj : j < certs.length) (hi2 : i < outs.length)
      (hj2 : j < outs.length), outs[i].com_id < outs[j].com_id) ∧
    (∀ (s : CentralRegistry) (c : Certificate),
      RequestHandler.handle s
          { type := Message.SIGN, content := .cert c, request := true } =
        some ((s.register_certificate c).1,
          { type := Message.SIGN,
            content := RegContent.cert (s.register_certificate c).2,
            request := false })) := by
  have hs1 : s2 = (signAll (CentralRegistry.init name addr key) certs).1 := by
    rw [hr]
  have hs2 : outs = (signAll (CentralRegistry.init name addr key) certs).2 := by
    rw [hr]
  subst hs1 hs2
  have hone : (CentralRegistry.init name addr key).com_id_counter = 1 := rfl
  have hget : ∀ i (hi : i < certs.length)
      (hi2 : i < (signAll (CentralRegistry.init name addr key) certs).2.length),
      (signAll (CentralRegistry.init name addr key) certs).2[i] =
        Certificate.sign { certs[i] with com_id := (i : Int) + 1 } key := by
    intro i hi hi2
    have := signAll_get (CentralRegistry.init name addr key) certs i hi hi2
    rw [hone] at this
    have harith : (1 : Int) + (i : Int) = (i : Int) + 1 := by ring
    rw [harith] at this
    exact this
  refine ⟨signAll_length _ _, ?_, ?_, ?_, ?_⟩
  · rw [signAll_counter, hone]
  · intro i hi hi2
    refine ⟨?_, hget i hi hi2, ?_, ?_⟩
    · rw [hget i hi hi2]
      rfl
    · rw [hget i hi hi2]
      rfl
    · have := signAll_sp (CentralRegistry.init name addr key) certs i hi
      rw [hone] at this
      have harith : (1 : Int) + (i : Int) = (i : Int) + 1 := by ring
      rw [harith] at this
      exact this
  · intro i j hij hj hi2 hj2
    rw [hget i (lt_trans hij hj) hi2, hget j hj hj2]
    show (i : Int) + 1 < (j : Int) + 1
    omega
  · intro s c
    rfl

/-- Witness for C1: a fresh registry serving SIGN requests from alice then
bob stores alice's descriptor under identifier 1 and bob's under 2. -/
theorem c1_sign_sequence_witness :
    findA (signAll (CentralRegistry.init "cr" ("reg", 1) 1)
        [{ name := "alice", address := ("a", 2), public_key := 10 },
         { name := "bob", address := ("b", 3), public_key := 20 }]).1.service_providers
        1 =
      some { com_id := 1, name := "alice", address := ("a", 2) } ∧
    findA (signAll (CentralRegistry.init "cr" ("reg", 1) 1)
        [{ name := "alice", address := ("a", 2), public_key := 10 },
         { name := "bob", address := ("b", 3), public_key := 20 }]).1.service_providers
        2 =
      some { com_id := 2, name := "bob", address := ("b", 3) } := by
  have h := c1_sign_sequence "cr" ("reg", 1) 1
    [{ name := "alice", address := ("a", 2), public_key := 10 },
     { name := "bob", address := ("b", 3), public_key := 20 }] _ _ rfl
  constructor
  · have := (h.2.2.1 0 (by decide) (by decide)).2.2.2
    simpa using this
  · have := (h.2.2.1 1 (by decide) (by decide)).2.2.2
    simpa using this

theorem verify_true_iff (c : Certificate) (key : RsaKey) :
    c.verify key = some true ↔ c.signature = some (key, c.hash) := by
  unfold Certificate.verify
  cases h : c.signature with
  | none => simp
  | some sig => simp

theorem verify_none_iff (c : Certificate) (key : RsaKey) :
    c.verify key = none ↔ c.signature = none := by
  unfold Certificate.verify
  cases h : c.signature with
  | none => simp
  | some sig => simp

theorem register_cert_true (s : Communicator) (crt : Certificate)
    (hv : crt.verify s.cr_key = some true) :
    s.register_certificate (some crt) =
      some ({ s with
          com_certificates := insertA s.com_certificates crt.com_id crt
          com_keys :=
            insertA s.com_keys crt.com_id (get_rsa_key crt.public_key) },
        true) := by
  simp [Communicator.register_certificate, hv]

theorem register_cert_reject (s : Communicator) (crt : Certificate)
    (hv : crt.verify s.cr_key = some false) :
    s.register_certificate (some crt) = some (s, false) := by
  simp [Communicator.register_certificate, hv]

theorem register_none (s : Communicator) :
    s.register_certificate none = some (s, false) := rfl

theorem register_crash_iff (s : Communicator) (crt : Certificate) :
    s.register_certificate (some crt) = none ↔
      crt.verify s.cr_key = none := by
  cases hv : crt.verify s.cr_key with
  | none => simp [Communicator.register_certificate, hv]
  | some b => cases b <;> simp [Communicator.register_certificate, hv]

theorem register_some_false (s : Communicator) (c : Option Certificate)
    (r : Communicator × Bool) (h : s.register_certificate c = some r)
    (hf : r.2 = false) : r = (s, false) := by
  match c with
  | none =>
    rw [register_none] at h
    exact (Option.some.inj h).symm
  | some crt =>
    cases hv : crt.verify s.cr_key with
    | none =>
      rw [(register_crash_iff s crt).mpr hv] at h
      cases h
    | some b =>
      cases b
      · rw [register_cert_reject s crt hv] at h
        exact (Option.some.inj h).symm
      · rw [register_cert_true s crt hv] at h
        rw [← Option.some.inj h] at hf
        simp at hf

theorem register_some_true_verify (s : Communicator) (crt : Certificate)
    (r : Communicator × Bool) (h : s.register_certificate (some crt) = some r)
    (ht : r.2 = true) : crt.verify s.cr_key = some true := by
  cases hv : crt.verify s.cr_key with
  | none =>
    rw [(register_crash_iff s crt).mpr hv] at h
    cases h
  | some b =>
    cases b
    · rw [register_cert_reject s crt hv] at h
      rw [← Option.some.inj h] at ht
      simp at ht
    · rfl

/-- Registry keypair used in the concrete examples. -/
def crKey : RsaKey := 1

/-- Registry certificate used in the concrete examples. -/
def crCert : Certificate :=
  { name := "cr", address := ("reg", 1), public_key := crKey }

/-- Alice's registry-signed certificate (communicator id 1). -/
def aliceCert : Certificate :=
  Certificate.sign
    { name := "alice", address := ("a", 2), public_key := 10, com_id := 1 } crKey

/-- Bob's unsigned, self-asserted certificate. -/
def bobCertUnsigned : Certificate :=
  { name := "bob", address := ("b", 3), public_key := 20 }

/-- Bob's registry-signed certificate (communicator id 2). -/
def bobCert : Certificate :=
  Certificate.sign
    { name := "bob", address := ("b", 3), public_key := 20, com_id := 2 } crKey

/-- Loader callback used in the concrete examples: loads one line. -/
def demoLoader (b : FileBuffer) : FileBuffer := { b with lines := ["line1"] }

/-- Communicator fixture for alice with empty caches. -/
def alice : Communicator :=
  { name := "alice", address := ("a", 2), loader := demoLoader, key := 10,
    certificate := aliceCert, com_certificates := [], com_keys := [],
    communicators := [], cr_certificate := crCert, cr_key := crKey }

/-- Communicator fixture for bob with a registry-signed certificate. -/
def bob : Communicator :=
  { name := "bob", address := ("b", 3), loader := demoLoader, key := 20,
    certificate := bobCert, com_certificates := [], com_keys := [],
    communicators := [], cr_certificate := crCert, cr_key := crKey }

/-- Self-signed certificate fixture: alice's certificate signed with her
own key 10 instead of the registry key. -/
def aliceCertSelf : Certificate :=
  Certificate.sign
    { name := "alice", address := ("a", 2), public_key := 10, com_id := 1 } 10

/-- Counterexample to C2 as stated: registering a certificate whose
signature field is still None (a non-registry-signed certificate, one of
the claim's "every other case" inputs) does not return false with the
caches as before — PyCrypto's verify raises TypeError on the None
signature, so register_certificate raises and never returns a boolean at
all. -/
theorem c2_counterexample :
    bobCertUnsigned.signature = none ∧
    bob.register_certificate (some bobCertUnsigned) = none ∧
    ∀ r, bob.register_certificate (some bobCertUnsigned) ≠ some r := by
  have hn : bob.register_certificate (some bobCertUnsigned) = none := rfl
  refine ⟨rfl, hn, fun r h => ?_⟩
  rw [hn] at h
  cases h

/-- C2 (amended): register_certificate returns true and caches the
certificate and its imported public key under the certificate's
identifier exactly when the argument is a non-null certificate whose
signature verifies against the registry public key; on a null
certificate, or one carrying a signature that does not verify (e.g. a
self-signed certificate), it returns false with the whole state
unchanged; on a certificate whose signature field is None the underlying
verify raises TypeError, so the call raises instead of returning a
boolean — the exception fires before any cache is touched. -/
theorem c2_register_certificate (s : Communicator) (c : Option Certificate) :
    (s.register_certificate c = none ↔
      ∃ crt, c = some crt ∧ crt.signature = none) ∧
    (∀ r, s.register_certificate c = some r →
      (r.2 = true ↔ ∃ crt, c = some crt ∧ crt.verify s.cr_key = some true) ∧
      (r.2 = false → r.1 = s) ∧
      (∀ crt, c = some crt → crt.verify s.cr_key = some true →
        r.1.com_certificates = insertA s.com_certificates crt.com_id crt ∧
        r.1.com_keys =
          insertA s.com_keys crt.com_id (get_rsa_key crt.public_key) ∧
        findA r.1.com_certificates crt.com_id = some crt ∧
        findA r.1.com_keys crt.com_id =
          some (get_rsa_key crt.public_key))) := by
  constructor
  · constructor
    · intro h
      match c with
      | none =>
        rw [register_none] at h
        cases h
      | some crt =>
        exact ⟨crt, rfl,
          (verify_none_iff _ _).mp ((register_crash_iff s crt).mp h)⟩
    · rintro ⟨crt, rfl, hsig⟩
      exact (register_crash_iff s crt).mpr ((verify_none_iff _ _).mpr hsig)
  · intro r hr
    refine ⟨⟨?_, ?_⟩, ?_, ?_⟩
    · intro ht
      match c with
      | none =>
        rw [register_none] at hr
        rw [← Option.some.inj hr] at ht
        simp at ht
      | some crt =>
        exact ⟨crt, rfl, register_some_true_verify s crt r hr ht⟩
    · rintro ⟨crt, rfl, hv⟩
      rw [register_cert_true s crt hv] at hr
      rw [← Option.some.inj hr]
    · intro hf
      rw [register_some_false s c r hr hf]
    · rintro crt rfl hv
      rw [register_cert_true s crt hv] at hr
      rw [← Option.some.inj hr]
      exact ⟨rfl, rfl, findA_insertA_self _ _ _, findA_insertA_self _ _ _⟩

/-- Witness for the amended C2: bob accepts alice's registry-signed
certificate, caching it and her key under id 1, and the crash case is
exactly the unsigned certificate. -/
theorem c2_register_certificate_witness :
    Option.map
        (fun r => (r.2, findA r.1.com_certificates 1,
          findA r.1.com_keys 1))
        (bob.register_certificate (some aliceCert)) =
      some (true, some aliceCert, some 10) ∧
    bob.register_certificate (some bobCertUnsigned) = none := by
  constructor
  · cases hreg : bob.register_certificate (some aliceCert) with
    | none =>
      obtain ⟨crt, hc, hsig⟩ :=
        (c2_register_certificate bob (some aliceCert)).1.mp hreg
      injection hc with h2
      rw [← h2] at hsig
      exact absurd hsig (by decide)
    | some r =>
      have h := (c2_register_certificate bob (some aliceCert)).2 r hreg
      have hv : aliceCert.verify bob.cr_key = some true := by decide
      have ht : r.2 = true := h.1.mpr ⟨aliceCert, rfl, hv⟩
      have h3 := h.2.2 aliceCert rfl hv
      have hf1 : findA r.1.com_certificates 1 = some aliceCert := h3.2.2.1
      have hf2 : findA r.1.com_keys 1 = some 10 := h3.2.2.2
      show some (r.2, findA r.1.com_certificates 1, findA r.1.com_keys 1) =
        some (true, some aliceCert, some 10)
      rw [ht, hf1, hf2]
  · exact (c2_register_certificate bob (some bobCertUnsigned)).1.mpr
      ⟨bobCertUnsigned, rfl, rfl⟩

/-- C3: peer-to-peer certificate exchange between bootstrapped nodes.
The bootstrap of section 4.2 makes every usable node carry a certificate
signed by the registry it is anchored to, stated here as each node's own
certificate verifying against its own trust anchor.  Under that context
the exchange always completes, and it succeeds exactly when the
responder b accepts a's certificate: acceptance forces the two trust
anchors to coincide, so a then accepts b's reply as well — a one-sided
verification failure is impossible.  On success a's caches hold b's
certificate and imported key under b's identifier and b's caches hold
a's under a's identifier; if either side's verification fails (which can
only be b rejecting a's certificate), neither node's state is changed by
the exchange. -/
theorem c3_exchange (a b : Communicator)
    (ha : a.certificate.verify a.cr_key = some true)
    (hb : b.certificate.verify b.cr_key = some true) :
    ∃ a2 b2 ok, exchange a b = some (a2, b2, ok) ∧
      (ok = true →
        findA a2.com_certificates b.certificate.com_id =
          some b.certificate ∧
        findA a2.com_keys b.certificate.com_id =
          some (get_rsa_key b.certificate.public_key) ∧
        findA b2.com_certificates a.certificate.com_id =
          some a.certificate ∧
        findA b2.com_keys a.certificate.com_id =
          some (get_rsa_key a.certificate.public_key)) ∧
      (ok = false → a2 = a ∧ b2 = b) ∧
      (ok = true ↔ a.certificate.verify b.cr_key = some true) := by
  have hasig := (verify_true_iff _ _).mp ha
  have hbsig := (verify_true_iff _ _).mp hb
  cases hv : a.certificate.verify b.cr_key with
  | none =>
    rw [verify_none_iff, hasig] at hv
    cases hv
  | some accepted =>
    cases accepted with
    | false =>
      have hregb := register_cert_reject b a.certificate hv
      have hhc : b.handleCert (some a.certificate) = some (b, none) := by
        simp [Communicator.handleCert, hregb]
      refine ⟨a, b, false, ?_, ?_, ?_, ?_⟩
      · simp [exchange, hhc, register_none]
      · intro hcontra
        simp at hcontra
      · intro hfalse
        exact ⟨rfl, rfl⟩
      · constructor
        · intro hcontra
          simp at hcontra
        · intro htrue
          exact Option.some.inj htrue
    | true =>
      have hv2 := (verify_true_iff _ _).mp hv
      rw [hasig] at hv2
      injection hv2 with hpair
      injection hpair with hkey hrest
      have hvb : b.certificate.verify a.cr_key = some true := by
        rw [verify_true_iff, hbsig, ← hkey]
      have hregb := register_cert_true b a.certificate hv
      have hhc : b.handleCert (some a.certificate) =
          some ({ b with
              com_certificates :=
                insertA b.com_certificates a.certificate.com_id a.certificate
              com_keys := insertA b.com_keys a.certificate.com_id
                (get_rsa_key a.certificate.public_key) },
            some b.certificate) := by
        simp [Communicator.handleCert, hregb]
      have hrega := register_cert_true a b.certificate hvb
      refine ⟨{ a with
          com_certificates :=
            insertA a.com_certificates b.certificate.com_id b.certificate
          com_keys := insertA a.com_keys b.certificate.com_id
            (get_rsa_key b.certificate.public_key) },
        { b with
          com_certificates :=
            insertA b.com_certificates a.certificate.com_id a.certificate
          com_keys := insertA b.com_keys a.certificate.com_id
            (get_rsa_key a.certificate.public_key) },
        true, ?_, ?_, ?_, ?_⟩
      · simp [exchange, hhc, hrega]
      · intro hok
        exact ⟨findA_insertA_self _ _ _, findA_insertA_self _ _ _,
          findA_insertA_self _ _ _, findA_insertA_self _ _ _⟩
      · intro hcontra
        simp at hcontra
      · exact ⟨fun _ => rfl, fun _ => rfl⟩

/-- Witness for C3: alice and bob, both carrying registry-signed
certificates anchored at the same registry, complete a successful
exchange after which each caches the other's certificate and key. -/
theorem c3_exchange_witness :
    ∃ a2 b2, exchange alice bob = some (a2, b2, true) ∧
      findA a2.com_certificates 2 = some bobCert ∧
      findA a2.com_keys 2 = some 20 ∧
      findA b2.com_certificates 1 = some aliceCert ∧
      findA b2.com_keys 1 = some 10 := by
  obtain ⟨a2, b2, ok, hex, hsucc, hfail, hiff⟩ :=
    c3_exchange alice bob (by decide) (by decide)
  have hok : ok = true := hiff.mpr (by decide)
  subst hok
  obtain ⟨h1, h2, h3, h4⟩ := hsucc rfl
  exact ⟨a2, b2, hex, h1, h2, h3, h4⟩

theorem fetchSend_exchanges (c : Communicator) (buffer : FileBuffer)
    (username : String) (net : Network) (n : Nat) :
    (c.fetchSend buffer username net n).exchanges = n := by
  simp only [Communicator.fetchSend]
  split
  · rfl
  · split
    · rfl
    · split <;> rfl

/-- Service provider directory entry for bob. -/
def spBob : SPDescriptor := { com_id := 2, name := "bob", address := ("b", 3) }

/-- Alice's cached directory knows bob; her certificate cache is empty. -/
def aliceDir : Communicator := { alice with communicators := [(2, spBob)] }

/-- Descriptor of a file owned by communicator 2. -/
def fileDesc : FileDescriptor :=
  { name := "f.txt", author := "bob", description := "d", file_id := 1,
    com_id := 2 }

/-- Unloaded buffer for that file. -/
def fileBuf : FileBuffer := { buffer_id := 1, descriptor := fileDesc }

/-- Network in which the peer rejects the certificate exchange (the
honest rejection reply is an empty payload) and refuses any file
request. -/
def netFail : Network :=
  { exchangeReply := none, fileReply := fun fr => (fr, true) }

/-- C4: fetch_file, when the owning communicator is resolvable from the
cached directory, attempts no certificate exchange when the owner's
certificate is already cached; otherwise it attempts exactly one
exchange, and when that exchange fails — register_certificate returning
False — it sends no FileRequest and returns no content (the Python
`return None`).  When the exchange attempt instead raises (TypeError on
an unsigned exchange reply) the call also constructs and sends no
FileRequest, the exception propagating out of fetch_file. -/
theorem c4_fetch_file (c : Communicator) (buffer : FileBuffer)
    (username : String) (net : Network) (sp : SPDescriptor)
    (hsp : findA c.communicators buffer.descriptor.com_id = some sp) :
    ((findA c.com_certificates buffer.descriptor.com_id).isSome = true →
      (c.fetch_file buffer username net).exchanges = 0) ∧
    (findA c.com_certificates buffer.descriptor.com_id = none →
      (c.fetch_file buffer username net).exchanges = 1 ∧
      (∀ r, c.register_certificate net.exchangeReply = some r →
        r.2 = false →
        (c.fetch_file buffer username net).sent = none ∧
        (c.fetch_file buffer username net).outcome = .exchangeFailed ∧
        (c.fetch_file buffer username net).state = c) ∧
      (c.register_certificate net.exchangeReply = none →
        (c.fetch_file buffer username net).sent = none ∧
        (c.fetch_file buffer username net).outcome = .typeErrorExchange ∧
        (c.fetch_file buffer username net).state = c)) := by
  constructor
  · intro htrust
    simp only [Communicator.fetch_file, hsp, htrust, if_true]
    exact fetchSend_exchanges c buffer username net 0
  · intro hnone
    have hfalse : (findA c.com_certificates buffer.descriptor.com_id).isSome =
        false := by
      rw [hnone]
      rfl
    refine ⟨?_, ?_, ?_⟩
    · cases hre : c.register_certificate net.exchangeReply with
      | none =>
        simp only [Communicator.fetch_file, hsp, hfalse, Bool.false_eq_true,
          if_false, hre]
      | some r =>
        rcases r with ⟨c1, b⟩
        cases b
        · simp only [Communicator.fetch_file, hsp, hfalse, Bool.false_eq_true,
            if_false, hre]
        · simp only [Communicator.fetch_file, hsp, hfalse, Bool.false_eq_true,
            if_false, hre, if_true]
          exact fetchSend_exchanges c1 buffer username net 1
    · intro r hre hrf
      have hr2 : r = (c, false) :=
        register_some_false c net.exchangeReply r hre hrf
      subst hr2
      simp only [Communicator.fetch_file, hsp, hfalse, Bool.false_eq_true,
        if_false, hre]
      exact ⟨trivial, trivial, trivial⟩
    · intro hre
      simp only [Communicator.fetch_file, hsp, hfalse, Bool.false_eq_true,
        if_false, hre]
      exact ⟨trivial, trivial, trivial⟩

/-- Witness for C4: alice knows bob only from the directory, the peer
rejects the exchange (empty reply), so one exchange is attempted, the
registration returns False cleanly, no FileRequest is sent, no content is
returned and her state is unchanged. -/
theorem c4_fetch_file_witness :
    (aliceDir.fetch_file fileBuf "user" netFail).exchanges = 1 ∧
    (aliceDir.fetch_file fileBuf "user" netFail).sent = none ∧
    (aliceDir.fetch_file fileBuf "user" netFail).outcome = .exchangeFailed := by
  have h := (c4_fetch_file aliceDir fileBuf "user" netFail spBob
    (by decide)).2 (by decide)
  have h2 := h.2.1 (aliceDir, false) (register_none aliceDir) rfl
  exact ⟨h.1, h2.1, h2.2.1⟩

/-- Bob serving requests after an exchange with alice: her certificate and
imported public key are cached under her identifier 1. -/
def bobServing : Communicator :=
  { bob with
      com_certificates := [(1, aliceCert)]
      com_keys := [(1, 10)] }

/-- Properly signed file request from alice (source id 1, key 10). -/
def goodRequest : FileRequest :=
  FileRequest.sign
    { username := "user", src_com_id := 1, content := fileBuf } 10

/-- File request claiming source id 1 but signed with the wrong key 99,
so it fails verification against alice's cached key 10. -/
def badRequest : FileRequest :=
  FileRequest.sign
    { username := "user", src_com_id := 1, content := fileBuf } 99

/-- C7: for an inbound FETCH_FILE request whose declared source id has a
cached public key, a request whose recomputed hash verifies against that
key and its signature gets its buffer populated by the loader callback,
is re-signed with the responder's private key and is answered with
is_request = false; a request failing verification (the verify
computation yielding False) is answered with is_request = true,
unmodified: the loader is not invoked, no signature is produced, and the
buffer content is unchanged.  An unsigned request is neither: verify
raises TypeError and no reply is sent at all. -/
theorem c7_handle_fetch_file (s : Communicator) (m : FileRequest) (k : RsaKey)
    (hk : findA s.com_keys m.src_com_id = some k) :
    (m.verify k = some true →
      CommunicatorHandler.handle s (.fileMsg m) =
        some (s,
          .fileMsg (FileRequest.sign { m with content := s.loader m.content }
            s.key),
          false)) ∧
    (m.verify k = some false →
      CommunicatorHandler.handle s (.fileMsg m) =
        some (s, .fileMsg m, true)) ∧
    (m.verify k = none →
      CommunicatorHandler.handle s (.fileMsg m) = none) := by
  refine ⟨fun hv => ?_, fun hv => ?_, fun hv => ?_⟩ <;>
    simp [CommunicatorHandler.handle, hk, hv]

/-- Witness for C7: bob serves alice's properly signed request by loading
the buffer, re-signing and accepting, and answers the wrongly signed
request with is_request = true and no change. -/
theorem c7_handle_fetch_file_witness :
    CommunicatorHandler.handle bobServing (.fileMsg goodRequest) =
      some (bobServing,
        .fileMsg (FileRequest.sign
          { goodRequest with content := bobServing.loader goodRequest.content }
          bobServing.key),
        false) ∧
    CommunicatorHandler.handle bobServing (.fileMsg badRequest) =
      some (bobServing, .fileMsg badRequest, true) := by
  have h1 := c7_handle_fetch_file bobServing goodRequest 10 (by decide)
  have h2 := c7_handle_fetch_file bobServing badRequest 10 (by decide)
  exact ⟨h1.1 (by decide), h2.2.1 (by decide)⟩

/-- C10: the communicator handler for an inbound FETCH_FILE request
whose declared source id has no cached key fails on the key-cache
indexing (KeyError) and hence produces no reply envelope at all, leaving
all server state untouched; and on every path on which a reply is
produced the source key was cached and the server state is unchanged,
so the reply-producing path is reachable only when the requester's key
was cached by a prior exchange.  (A cached key with an unsigned request
also produces no reply — TypeError inside verify — so a missing reply
does not by itself imply a cache miss.) -/
theorem c10_unknown_source (s : Communicator) (m : FileRequest) :
    (findA s.com_keys m.src_com_id = none →
      CommunicatorHandler.handle s (.fileMsg m) = none) ∧
    (∀ r, CommunicatorHandler.handle s (.fileMsg m) = some r →
      (findA s.com_keys m.src_com_id).isSome = true ∧ r.1 = s) := by
  constructor
  · intro hk
    simp [CommunicatorHandler.handle, hk]
  · intro r hr
    cases hk : findA s.com_keys m.src_com_id with
    | none => simp [CommunicatorHandler.handle, hk] at hr
    | some k =>
      refine ⟨rfl, ?_⟩
      cases hv : m.verify k with
      | none => simp [CommunicatorHandler.handle, hk, hv] at hr
      | some b =>
        cases b
        · simp [CommunicatorHandler.handle, hk, hv] at hr
          rw [← hr]
        · simp [CommunicatorHandler.handle, hk, hv] at hr
          rw [← hr]

/-- Witness for C10: bob with an empty key cache produces no reply at all
to alice's request. -/
theorem c10_unknown_source_witness :
    CommunicatorHandler.handle bob (.fileMsg goodRequest) = none := by
  exact (c10_unknown_source bob goodRequest).1 (by decide)

/-- C6: the value covered by a FileRequest signature is the digest of, in
order, the username, the type tag FETCH_FILE, each buffer line in
sequence (nothing when the buffer is empty), and one formatted string of
four integers in which the descriptor's owning communicator identifier
occupies both the first and the third position, with the source
communicator identifier second and the file identifier fourth — not four
distinct fields. -/
theorem c6_file_request_hash (f : FileRequest) :
    f.hash =
      [f.username, Message.FETCH_FILE] ++ f.content.lines ++
        [toString f.content.descriptor.com_id ++ " " ++
         toString f.src_com_id ++ " " ++
         toString f.content.descriptor.com_id ++ " " ++
         toString f.content.descriptor.file_id] ∧
    (∀ key, f.sign key = { f with signature := some (key, f.hash) }) ∧
    (∀ key, f.verify key =
      Option.map (fun sig => decide (sig = (key, f.hash))) f.signature) := by
  refine ⟨?_, fun key => rfl, fun key => ?_⟩
  · by_cases h : f.content.lines.isEmpty
    · have hnil : f.content.lines = [] := by simpa [List.isEmpty_iff] using h
      simp [FileRequest.hash, h, hnil]
    · simp [FileRequest.hash, h]
  · unfold FileRequest.verify
    cases f.signature <;> rfl

theorem publish_cons_fst (s : CentralRegistry) (f : FileDescriptor)
    (fs : List FileDescriptor) :
    (s.publish (f :: fs)).1 =
      (({ s with
          file_id_counter := s.file_id_counter + 1
          public_files := insertA s.public_files s.file_id_counter
            { f with file_id := s.file_id_counter } }).publish fs).1 := rfl

theorem publish_cons_snd (s : CentralRegistry) (f : FileDescriptor)
    (fs : List FileDescriptor) :
    (s.publish (f :: fs)).2 =
      { f with file_id := s.file_id_counter } ::
        (({ s with
            file_id_counter := s.file_id_counter + 1
            public_files := insertA s.public_files s.file_id_counter
              { f with file_id := s.file_id_counter } }).publish fs).2 := rfl

theorem publish_length (s : CentralRegistry) (fs : List FileDescriptor) :
    (s.publish fs).2.length = fs.length := by
  induction fs generalizing s with
  | nil => rfl
  | cons f fs ih => rw [publish_cons_snd, List.length_cons, ih, List.length_cons]

theorem publish_counter (s : CentralRegistry) (fs : List FileDescriptor) :
    (s.publish fs).1.file_id_counter = s.file_id_counter + fs.length := by
  induction fs generalizing s with
  | nil => simp [CentralRegistry.publish]
  | cons f fs ih =>
    rw [publish_cons_fst, ih, List.length_cons]
    push_cast
    ring

theorem publish_pf_preserved (s : CentralRegistry) (fs : List FileDescriptor)
    (k : Int) (hk : k < s.file_id_counter) :
    findA (s.publish fs).1.public_files k = findA s.public_files k := by
  induction fs generalizing s with
  | nil => rfl
  | cons f fs ih =>
    rw [publish_cons_fst, ih _ (by simpa using lt_trans hk (by omega))]
    exact findA_insertA_ne _ _ _ _ (by omega)

theorem publish_get (s : CentralRegistry) (fs : List FileDescriptor)
    (i : Nat) (h : i < fs.length) (h2 : i < (s.publish fs).2.length) :
    (s.publish fs).2[i] = { fs[i] with file_id := s.file_id_counter + i } := by
  induction fs generalizing s i with
  | nil => exact absurd h (by simp)
  | cons f fs ih =>
    match i with
    | 0 => simp [publish_cons_snd]
    | i + 1 =>
      have hlen : i < (({ s with
          file_id_counter := s.file_id_counter + 1
          public_files := insertA s.public_files s.file_id_counter
            { f with file_id := s.file_id_counter } }).publish fs).2.length := by
        rw [publish_length]
        exact Nat.lt_of_succ_lt_succ h
      have hfs : i < fs.length := Nat.lt_of_succ_lt_succ h
      have hi := ih _ i hfs hlen
      have hi2 : (({ s with
          file_id_counter := s.file_id_counter + 1
          public_files := insertA s.public_files s.file_id_counter
            { f with file_id := s.file_id_counter } }).publish fs).2[i] =
          { fs[i] with file_id := s.file_id_counter + 1 + (i : Int) } := hi
      have harith : s.file_id_counter + 1 + (i : Int) =
          s.file_id_counter + ((i + 1 : Nat) : Int) := by
        push_cast
        ring
      rw [harith] at hi2
      simp only [publish_cons_snd, List.getElem_cons_succ]
      exact hi2

theorem publish_pf (s : CentralRegistry) (fs : List FileDescriptor)
    (i : Nat) (h : i < fs.length) :
    findA (s.publish fs).1.public_files (s.file_id_counter + i) =
      some { fs[i] with file_id := s.file_id_counter + i } := by
  induction fs generalizing s i with
  | nil => exact absurd h (by simp)
  | cons f fs ih =>
    match i with
    | 0 =>
      rw [publish_cons_fst,
        publish_pf_preserved _ _ _ (by simpa using by omega)]
      simpa using findA_insertA_self s.public_files s.file_id_counter
        { f with file_id := s.file_id_counter }
    | i + 1 =>
      have hi := ih { s with
          file_id_counter := s.file_id_counter + 1
          public_files := insertA s.public_files s.file_id_counter
            { f with file_id := s.file_id_counter } } i
        (Nat.lt_of_succ_lt_succ h)
      have harith : s.file_id_counter + 1 + (i : Int) =
          s.file_id_counter + ((i + 1 : Nat) : Int) := by
        push_cast
        ring
      rw [publish_cons_fst]
      simp only at hi
      rw [harith] at hi
      simpa using hi

/-- File descriptor fixture published first in the examples. -/
def fdescA : FileDescriptor :=
  { name := "a.txt", author := "alice", description := "x" }

/-- File descriptor fixture published second in the examples. -/
def fdescB : FileDescriptor :=
  { name := "b.txt", author := "alice", description := "y" }

/-- C5: a PUBLISH request with N descriptors assigns them, in list order,
the N consecutive identifiers continuing the global file id counter
(strictly increasing within a call, and disjoint from the identifiers of
any later PUBLISH call, so every assigned file identifier is globally
unique), inserts each descriptor into the public file directory under its
new identifier, and the handler returns the mutated list with
is_request = false; the publishing communicator stamps its own identifier
onto every descriptor before forwarding. -/
theorem c5_publish (s : CentralRegistry) (fs : List FileDescriptor) :
    (s.publish fs).2.length = fs.length ∧
    (s.publish fs).1.file_id_counter = s.file_id_counter + fs.length ∧
    (∀ i (hi : i < fs.length) (hi2 : i < (s.publish fs).2.length),
      (s.publish fs).2[i] = { fs[i] with file_id := s.file_id_counter + i } ∧
      findA (s.publish fs).1.public_files (s.file_id_counter + i) =
        some { fs[i] with file_id := s.file_id_counter + i }) ∧
    (∀ i j, i < j → ∀ (hj : j < fs.length) (hi2 : i < (s.publish fs).2.length)
      (hj2 : j < (s.publish fs).2.length),
      (s.publish fs).2[i].file_id < (s.publish fs).2[j].file_id) ∧
    (∀ (gs : List FileDescriptor) i j (hi : i < fs.length) (hj : j < gs.length)
      (hi2 : i < (s.publish fs).2.length)
      (hj2 : j < ((s.publish fs).1.publish gs).2.length),
      (s.publish fs).2[i].file_id ≠
        ((s.publish fs).1.publish gs).2[j].file_id) ∧
    (∀ (c : Communicator) (files : List FileDescriptor) i
      (hi : i < files.length) (hi2 : i < (c.stampFiles files).length),
      (c.stampFiles files)[i] =
        { files[i] with com_id := c.certificate.com_id }) ∧
    (∀ (s2 : CentralRegistry) (f : FileDescriptor)
      (rest : List FileDescriptor),
      RequestHandler.handle s2
          { type := Message.PUBLISH, content := .files (f :: rest),
            request := true } =
        some ((s2.publish (f :: rest)).1,
          { type := Message.PUBLISH,
            content := RegContent.files ((s2.publish (f :: rest)).2),
            request := false })) := by
  refine ⟨publish_length s fs, publish_counter s fs, ?_, ?_, ?_, ?_, ?_⟩
  · intro i hi hi2
    exact ⟨publish_get s fs i hi hi2, publish_pf s fs i hi⟩
  · intro i j hij hj hi2 hj2
    rw [publish_get s fs i (lt_trans hij hj) hi2, publish_get s fs j hj hj2]
    show s.file_id_counter + (i : Int) < s.file_id_counter + (j : Int)
    omega
  · intro gs i j hi hj hi2 hj2
    rw [publish_get s fs i hi hi2, publish_get _ gs j hj hj2]
    show s.file_id_counter + (i : Int) ≠
      (s.publish fs).1.file_id_counter + (j : Int)
    rw [publish_counter]
    omega
  · intro c files i hi hi2
    simp [Communicator.stampFiles]
  · intro s2 f rest
    rfl

/-- Witness for C5: publishing two descriptors on a fresh registry stores
them under file identifiers 1 and 2 and moves the counter to 3. -/
theorem c5_publish_witness :
    findA ((CentralRegistry.init "cr" ("reg", 1) 1).publish
        [fdescA, fdescB]).1.public_files 1 =
      some { name := "a.txt", author := "alice", description := "x",
             file_id := 1, com_id := -1 } ∧
    findA ((CentralRegistry.init "cr" ("reg", 1) 1).publish
        [fdescA, fdescB]).1.public_files 2 =
      some { name := "b.txt", author := "alice", description := "y",
             file_id := 2, com_id := -1 } ∧
    ((CentralRegistry.init "cr" ("reg", 1) 1).publish
        [fdescA, fdescB]).1.file_id_counter = 3 := by
  have h := c5_publish (CentralRegistry.init "cr" ("reg", 1) 1)
    [fdescA, fdescB]
  refine ⟨?_, ?_, ?_⟩
  · have hx := (h.2.2.1 0 (by decide) (by decide)).2
    simpa [fdescA, CentralRegistry.init] using hx
  · have hx := (h.2.2.1 1 (by decide) (by decide)).2
    norm_num [fdescB, CentralRegistry.init] at hx
    exact hx
  · rw [h.2.1]
    norm_num [CentralRegistry.init]

/-- C9: a registry-bound message whose type is not one of the five
supported tags is always answered with is_request = true and an otherwise
unchanged message, with the registry state unchanged; and every reply the
handler does produce carries is_request = false exactly when the type is
one of the five supported tags. -/
theorem c9_handle_types (s : CentralRegistry) (m : RegMessage) :
    (m.type ∉ Message.TYPES →
      RequestHandler.handle s m = some (s, { m with request := true })) ∧
    (∀ s2 rep, RequestHandler.handle s m = some (s2, rep) →
      (rep.request = false ↔ m.type ∈ Message.TYPES)) := by
  constructor
  · intro hnot
    simp only [Message.TYPES, List.mem_cons, List.mem_singleton, not_or] at hnot
    obtain ⟨h1, h2, h3, h4, h5⟩ := hnot
    simp [RequestHandler.handle, h1, h2, h3, h4, h5]
  · intro s2 rep hrep
    unfold RequestHandler.handle at hrep
    split at hrep
    next h1 =>
      simp only [Option.some.injEq, Prod.mk.injEq] at hrep
      rw [← hrep.2]
      simp [Message.TYPES, h1]
    next h1 =>
      split at hrep
      next h2 =>
        split at hrep
        next c hc =>
          simp only [Option.some.injEq, Prod.mk.injEq] at hrep
          rw [← hrep.2]
          simp [Message.TYPES, h2]
        next hc =>
          exact absurd hrep (by simp)
      next h2 =>
        split at hrep
        next h3 =>
          split at hrep
          next f rest hc =>
            simp only [Option.some.injEq, Prod.mk.injEq] at hrep
            rw [← hrep.2]
            simp [Message.TYPES, h3]
          next hc =>
            exact absurd hrep (by simp)
        next h3 =>
          split at hrep
          next h4 =>
            simp only [Option.some.injEq, Prod.mk.injEq] at hrep
            rw [← hrep.2]
            simp [Message.TYPES, h4]
          next h4 =>
            split at hrep
            next h5 =>
              simp only [Option.some.injEq, Prod.mk.injEq] at hrep
              rw [← hrep.2]
              simp [Message.TYPES, h5]
            next h5 =>
              simp only [Option.some.injEq, Prod.mk.injEq] at hrep
              rw [← hrep.2]
              simp [Message.TYPES, h1, h2, h3, h4, h5]

/-- Witness for C9: a fresh registry answers a BOGUS-typed message with
is_request = true, echoing the message and leaving its state unchanged. -/
theorem c9_handle_types_witness :
    RequestHandler.handle (CentralRegistry.init "cr" ("reg", 1) 1)
        { type := "BOGUS", content := .nil, request := true } =
      some (CentralRegistry.init "cr" ("reg", 1) 1,
        { type := "BOGUS", content := .nil, request := true }) := by
  exact (c9_handle_types (CentralRegistry.init "cr" ("reg", 1) 1)
    { type := "BOGUS", content := .nil, request := true }).1 (by decide)

/-- Alice trusting bob: his certificate and imported key cached under his
identifier 2, his directory entry known. -/
def aliceTrusting : Communicator :=
  { alice with
      com_certificates := [(2, bobCert)]
      com_keys := [(2, 20)]
      communicators := [(2, spBob)] }

/-- Network whose peer refuses every file request (is_request = true on
the reply) while attaching non-empty content to the refusal. -/
def netRefuse : Network :=
  { exchangeReply := none,
    fileReply := fun fr =>
      ({ fr with content := { fr.content with lines := ["gotcha"] } }, true) }

/-- Counterexample to C8 as stated: alice fetches from a trusted peer,
the reply comes back with is_request = true (a refusal), yet fetch_file
still returns the reply's content — here a buffer with a non-empty line
list — instead of delivering no content. -/
theorem c8_counterexample :
    (aliceTrusting.fetch_file fileBuf "user" netRefuse).outcome =
      FetchOutcome.returned { fileBuf with lines := ["gotcha"] } true none := by
  decide

/-- C8 amended: after fetch_file sends its signed FileRequest and reads
one reply, (i) a reply with is_request = true is only reported as a
refusal — the reply's content is still returned to the caller rather
than None; (ii) a reply with is_request = false has its signature
verified against the cached peer key, and when that verification
computes a boolean the result is advisory only: the reply's content is
returned whether it verified or not; (iii) a non-refusal reply whose
signature field is None makes verify raise TypeError, so the call
crashes and delivers nothing. -/
theorem c8_fetch_reply (c : Communicator) (buffer : FileBuffer)
    (username : String) (net : Network) (n : Nat) (message : FileRequest)
    (hmsg : message =
      (FileRequest.mk username c.certificate.com_id none buffer).sign c.key) :
    ((net.fileReply message).2 = true →
      c.fetchSend buffer username net n =
        ⟨c, n, some message,
          .returned (net.fileReply message).1.content true none⟩) ∧
    (∀ k v, (net.fileReply message).2 = false →
      findA c.com_keys buffer.descriptor.com_id = some k →
      (net.fileReply message).1.verify k = some v →
      c.fetchSend buffer username net n =
        ⟨c, n, some message,
          .returned (net.fileReply message).1.content false (some v)⟩) ∧
    (∀ k, (net.fileReply message).2 = false →
      findA c.com_keys buffer.descriptor.com_id = some k →
      (net.fileReply message).1.verify k = none →
      c.fetchSend buffer username net n =
        ⟨c, n, some message, .typeErrorReply⟩) := by
  subst hmsg
  refine ⟨fun h => ?_, fun k v h hk hv => ?_, fun k h hk hv => ?_⟩
  · simp [Communicator.fetchSend, h]
  · simp [Communicator.fetchSend, h, hk, hv]
  · simp [Communicator.fetchSend, h, hk, hv]

/-- Witness for the amended C8: alice's fetch from the refusing peer
returns the refusal reply's content. -/
theorem c8_fetch_reply_witness :
    aliceTrusting.fetchSend fileBuf "user" netRefuse 0 =
      ⟨aliceTrusting, 0,
        some ((FileRequest.mk "user" aliceTrusting.certificate.com_id none
          fileBuf).sign aliceTrusting.key),
        .returned { fileBuf with lines := ["gotcha"] } true none⟩ := by
  have h := (c8_fetch_reply aliceTrusting fileBuf "user" netRefuse 0 _
    rfl).1 (by decide)
  exact h
